import Mathlib

/-!
Verification of the word-enrichment pipeline (`etymgroup2.py`).

The program fetches a dictionary page per word, extracts a first-known-use
year (`extract_year`), an etymology text (`extract_etymology`, falling back to
`classify_by_year`), and appends the results to each CSV row (`main`).

The shallow embedding below models:
* HTML documents as a tree of element/text nodes (`Node`), with
  BeautifulSoup's `find` as a pre-order depth-first search over descendants;
* BeautifulSoup's multi-valued-class matching: a `class_` filter is applied
  to each whitespace-split class token and to the space-joined class string;
* the two regular expressions `\b(\d{3,4})\b` and
  `\b(\d{1,2})(?:st|nd|rd|th)\s+century\b` (IGNORECASE) as explicit
  left-to-right scanners (`reSearch`) with per-position matchers
  (`tryA`, `tryC`), including `re.search`'s leftmost-match and greedy
  semantics;
* the network fetch as an oracle `String → FetchResult`, where
  `FetchResult.failure` covers `requests.RequestException` (network errors,
  timeouts, and non-2xx statuses via `raise_for_status`).
-/

/-- A word character in the sense of the regex `\b` boundary:
letter, digit, or underscore. -/
def isWordChar (c : Char) : Bool := c.isAlpha || c.isDigit || c == '_'

/-- `\b` holds after the match end: the next character (head of the remaining
input) is absent or not a word character. -/
def noWordAhead : List Char → Bool
  | [] => true
  | c :: _ => !isWordChar c

/-- Value of a decimal numeral given as its list of digit characters,
as computed by Python's `int()` (leading zeros allowed). -/
def digitsToNat (l : List Char) : Nat := l.foldl (fun a c => a * 10 + (c.toNat - 48)) 0

/-- Matcher for `(\d{3,4})\b` at the current position (the scanner has already
checked the `\b` before the first digit).  Greedy: four digits are tried
first; the three-digit fallback needs a non-word character (or the end)
right after the third digit. -/
def tryA : List Char → Option Nat
  | a :: b :: c :: d :: rest =>
    if a.isDigit && b.isDigit && c.isDigit then
      if d.isDigit then
        if noWordAhead rest then some (digitsToNat [a, b, c, d]) else none
      else if isWordChar d then none else some (digitsToNat [a, b, c])
    else none
  | [a, b, c] => if a.isDigit && b.isDigit && c.isDigit then some (digitsToNat [a, b, c]) else none
  | _ => none

/-- Case-insensitive ordinal suffix `st|nd|rd|th`. -/
def ordSuffix (a b : Char) : Bool :=
  (a.toLower == 's' && b.toLower == 't') || (a.toLower == 'n' && b.toLower == 'd') ||
  (a.toLower == 'r' && b.toLower == 'd') || (a.toLower == 't' && b.toLower == 'h')

/-- Case-insensitive literal `century` followed by a `\b` boundary. -/
def centuryWord : List Char → Bool
  | c1 :: c2 :: c3 :: c4 :: c5 :: c6 :: c7 :: rest =>
    c1.toLower == 'c' && c2.toLower == 'e' && c3.toLower == 'n' && c4.toLower == 't' &&
    c5.toLower == 'u' && c6.toLower == 'r' && c7.toLower == 'y' && noWordAhead rest
  | _ => false

/-- `\s*century\b` (whitespace already begun by `wsCentury`). -/
def restWsCentury : List Char → Bool
  | [] => false
  | c :: rest => if c.isWhitespace then restWsCentury rest else centuryWord (c :: rest)

/-- `\s+century\b`: at least one whitespace character, then `century\b`. -/
def wsCentury : List Char → Bool
  | [] => false
  | c :: rest => c.isWhitespace && restWsCentury rest

/-- `(?:st|nd|rd|th)\s+century\b`. -/
def tailCentury : List Char → Bool
  | a :: b :: rest => ordSuffix a b && wsCentury rest
  | _ => false

/-- Matcher for `(\d{1,2})(?:st|nd|rd|th)\s+century\b` at the current
position.  Greedy: two digits are tried before the one-digit backtrack. -/
def tryC : List Char → Option Nat
  | [] => none
  | a :: rest =>
    if a.isDigit then
      match rest with
      | [] => none
      | b :: rest2 =>
        if b.isDigit then
          if tailCentury rest2 then some (digitsToNat [a, b])
          else if tailCentury rest then some (digitsToNat [a]) else none
        else if tailCentury rest then some (digitsToNat [a]) else none
    else none

/-- `re.search` for a pattern starting with `\b\d`: try the matcher at each
position left to right; a position is viable only when the previous
character is not a word character (`prev` tracks word-ness of the previous
character, `false` at the start of the input). -/
def reSearch (t : List Char → Option Nat) : Bool → List Char → Option Nat
  | prev, [] => if prev then none else t []
  | prev, c :: rest =>
    match (if prev then none else t (c :: rest)) with
    | some v => some v
    | none => reSearch t (isWordChar c) rest

/-- The matcher `t` attempted at position `i` of the input, with the same
boundary handling as `reSearch`: `attemptAt t false cs i` is `some v` exactly
when the regex modelled by `t` matches at position `i` of `cs` with value
`v`. -/
def attemptAt (t : List Char → Option Nat) : Bool → List Char → Nat → Option Nat
  | prev, cs, 0 => if prev then none else t cs
  | _, [], _ + 1 => none
  | _, c :: rest, i + 1 => attemptAt t (isWordChar c) rest i

mutual
/-- HTML element/text node, as parsed by BeautifulSoup: tag name, the
whitespace-split list of class tokens, and children in document order. -/
inductive Node where
  | text (s : String)
  | elem (tag : String) (classes : List String) (children : NodeList)
/-- A list of sibling nodes (a separate inductive so that structural
recursion over the tree is available). -/
inductive NodeList where
  | nil
  | cons (n : Node) (l : NodeList)
end

mutual
/-- `tag.find(...)`: pre-order depth-first search over the descendants of a
node (the node itself is not considered, matching BeautifulSoup). -/
def nodeFind (p : Node → Bool) : Node → Option Node
  | Node.text _ => none
  | Node.elem _ _ ch => forestFind p ch

/-- Search of a sibling forest: each node is tested before its subtree,
subtrees before later siblings (document order). -/
def forestFind (p : Node → Bool) : NodeList → Option Node
  | NodeList.nil => none
  | NodeList.cons n rest =>
    if p n then some n
    else
      match nodeFind p n with
      | some m => some m
      | none => forestFind p rest
end

mutual
/-- All text-node strings below a node, in document order
(BeautifulSoup's `strings` of a tag). -/
def nodeTexts : Node → List String
  | Node.text s => [s]
  | Node.elem _ _ ch => forestTexts ch

/-- Text-node strings of a sibling forest in document order. -/
def forestTexts : NodeList → List String
  | NodeList.nil => []
  | NodeList.cons n rest => nodeTexts n ++ forestTexts rest
end

/-- `tag.get_text()`: concatenation of all descendant strings. -/
def getText (n : Node) : String := String.join (nodeTexts n)

/-- Python's `str.strip()`: leading and trailing whitespace removed. -/
def stripStr (s : String) : String :=
  String.mk (((s.toList.dropWhile Char.isWhitespace).reverse.dropWhile Char.isWhitespace).reverse)

/-- `tag.get_text(separator=' ', strip=True)`: each descendant string is
stripped, empty results are dropped, the rest joined by single spaces. -/
def getTextSep (n : Node) : String :=
  String.intercalate " " (((nodeTexts n).map stripStr).filter (fun s => s != ""))

/-- `' '.join(classes)`: the class attribute seen as one string, used by
BeautifulSoup when a `class_` filter fails on every individual token. -/
def joinClasses : List String → String
  | [] => ""
  | [s] => s
  | s :: rest => s ++ " " ++ joinClasses rest

/-- `needle` occurs as a contiguous sublist (Python's `in` on strings). -/
def isPrefixList : List Char → List Char → Bool
  | [], _ => true
  | _ :: _, [] => false
  | a :: as, b :: bs => a == b && isPrefixList as bs

/-- Substring test: some suffix of the haystack starts with the needle. -/
def containsSub (needle : List Char) : List Char → Bool
  | [] => needle.isEmpty
  | c :: rest => isPrefixList needle (c :: rest) || containsSub needle rest

/-- Python's `needle in hay` on strings. -/
def strContains (hay needle : String) : Bool := containsSub needle.toList hay.toList

/-- The filter `soup.find('div', class_=lambda x: x and
'first-known-content-section' in x)`.  BeautifulSoup applies the lambda to
each class token and to the space-joined class string; since the needle
contains no space, both reduce to substring containment in the joined
string. -/
def isFirstKnownDiv : Node → Bool
  | Node.text _ => false
  | Node.elem tag cls _ =>
    tag == "div" && strContains (joinClasses cls) "first-known-content-section"

/-- The filter `first_known_div.find('p', class_=lambda x: x and 'ety-sl' in
x and 'pb-3' in x)`.  A single token containing both needles, or the joined
class string containing both (BeautifulSoup also tries the joined string):
both collapse to containment in the joined string. -/
def isYearP : Node → Bool
  | Node.text _ => false
  | Node.elem tag cls _ =>
    tag == "p" && strContains (joinClasses cls) "ety-sl" && strContains (joinClasses cls) "pb-3"

/-- The filter `soup.find('div', class_=lambda x: x and
'etymology-content-section' in x)`. -/
def isEtymDiv : Node → Bool
  | Node.text _ => false
  | Node.elem tag cls _ =>
    tag == "div" && strContains (joinClasses cls) "etymology-content-section"

/-- The filter `etym_div.find('p', class_='et')`.  For a multi-valued class
attribute BeautifulSoup matches a string filter against each individual
token, and then against the space-joined class string, so a `p` whose token
list contains `"et"` among other tokens also matches. -/
def isEtymP : Node → Bool
  | Node.text _ => false
  | Node.elem tag cls _ => tag == "p" && (cls.contains "et" || joinClasses cls == "et")

/-- `extract_year(soup, word)`: locate the first-known-use `div`, the year
`p` inside it, and scan its text with pattern A (`\b(\d{3,4})\b`), then
pattern B (`\b(\d{1,2})(?:st|nd|rd|th)\s+century\b`, IGNORECASE); century
`n` is converted to `(n - 1) * 100`.  The `word` argument is used only for
diagnostics in the source. -/
def extract_year (soup : Node) (word : String) : Int × Bool :=
  match nodeFind isFirstKnownDiv soup with
  | none => (-1, false)
  | some d =>
    match nodeFind isYearP d with
    | none => (-1, false)
    | some p =>
      match reSearch tryA false (getText p).toList with
      | some y => ((y : Int), true)
      | none =>
        match reSearch tryC false (getText p).toList with
        | some c => (((c : Int) - 1) * 100, false)
        | none => (-1, false)

/-- `classify_by_year(year)`. -/
def classify_by_year (year : Int) : String :=
  if 1800 ≤ year then "modern english"
  else if 1450 < year ∧ year < 1800 then "early modern english"
  else "unknown"

/-- `extract_etymology(soup, year)`: the `et` paragraph's normalized text if
the etymology section, the paragraph, and non-empty text all exist,
otherwise `classify_by_year(year)`. -/
def extract_etymology (soup : Node) (year : Int) : String :=
  match nodeFind isEtymDiv soup with
  | none => classify_by_year year
  | some d =>
    match nodeFind isEtymP d with
    | none => classify_by_year year
    | some p =>
      if getTextSep p == "" then classify_by_year year else getTextSep p

/-- Outcome of `requests.get(url, timeout=10)` followed by
`raise_for_status()`: either a parsed document or a failure
(`requests.RequestException`: network error, timeout, or non-2xx status). -/
inductive FetchResult where
  | failure
  | success (doc : Node)

/-- `fetch_word_data(word)` with the network modelled by `oracle` (the word
is lower-cased before building the URL, hence before the fetch). -/
def fetch_word_data (oracle : String → FetchResult) (word : String) : Int × String × Bool :=
  match oracle word.toLower with
  | FetchResult.failure => (-1, "unknown", false)
  | FetchResult.success soup =>
    ((extract_year soup word.toLower).1,
     extract_etymology soup (extract_year soup word.toLower).1,
     (extract_year soup word.toLower).2)

/-- `str(b)` for a Python boolean, as written by `csv.writer`. -/
def boolStr (b : Bool) : String := if b then "True" else "False"

/-- One output row of `main`: the input row with
`[year, etym, is_accurate]` appended (as written by `csv.writer`). -/
def enrichRow (oracle : String → FetchResult) (row : List String) : List String :=
  row ++ [toString (fetch_word_data oracle (row.getD 2 "")).1,
    (fetch_word_data oracle (row.getD 2 "")).2.1,
    boolStr (fetch_word_data oracle (row.getD 2 "")).2.2]

/-- The data-row loop of `main`: rows with fewer than 3 fields are skipped
(`continue`), every other row is written with the three appended values. -/
def main_rows (oracle : String → FetchResult) : List (List String) → List (List String)
  | [] => []
  | row :: rest =>
    if row.length < 3 then main_rows oracle rest
    else enrichRow oracle row :: main_rows oracle rest

/-! ### Lemmas about the scanners -/

/-- A digit character has code between 48 and 57. -/
theorem isDigit_toNat {c : Char} (h : c.isDigit = true) : 48 ≤ c.toNat ∧ c.toNat ≤ 57 := by
  simpa [Char.isDigit] using h

/-- If the matcher succeeds at position `i` and fails at every earlier
position, the left-to-right search returns that value. -/
theorem reSearch_of_attemptAt {t : List Char → Option Nat} :
    ∀ {cs : List Char} {b : Bool} {i v : Nat},
    attemptAt t b cs i = some v → (∀ j, j < i → attemptAt t b cs j = none) →
    reSearch t b cs = some v := by
  intro cs
  induction cs with
  | nil =>
    intro b i v h _
    cases i with
    | zero => simpa [reSearch, attemptAt] using h
    | succ n => simp [attemptAt] at h
  | cons c rest ih =>
    intro b i v h hmin
    cases i with
    | zero =>
      unfold attemptAt at h
      simp [reSearch, h]
    | succ n =>
      have h0 := hmin 0 (Nat.succ_pos n)
      unfold attemptAt at h0 h
      have htail : reSearch t (isWordChar c) rest = some v := by
        refine ih h ?_
        intro j hj
        have := hmin (j + 1) (by omega)
        simpa [attemptAt] using this
      simp [reSearch, h0, htail]

/-- If the matcher fails at every position, the search fails. -/
theorem reSearch_none_of_attemptAt {t : List Char → Option Nat} :
    ∀ {cs : List Char} {b : Bool},
    (∀ j, attemptAt t b cs j = none) → reSearch t b cs = none := by
  intro cs
  induction cs with
  | nil =>
    intro b h
    simpa [reSearch, attemptAt] using h 0
  | cons c rest ih =>
    intro b h
    have h0 := h 0
    unfold attemptAt at h0
    have htail : reSearch t (isWordChar c) rest = none := by
      refine ih ?_
      intro j
      have := h (j + 1)
      simpa [attemptAt] using this
    simp [reSearch, h0, htail]

/-- Conversely, a failed search means the matcher fails at every position. -/
theorem attemptAt_none_of_reSearch {t : List Char → Option Nat} :
    ∀ {cs : List Char} {b : Bool},
    reSearch t b cs = none → ∀ j, attemptAt t b cs j = none := by
  intro cs
  induction cs with
  | nil =>
    intro b h j
    cases j with
    | zero => simpa [reSearch, attemptAt] using h
    | succ n => simp [attemptAt]
  | cons c rest ih =>
    intro b h j
    unfold reSearch at h
    cases hc : (if b then none else t (c :: rest)) with
    | some v => rw [hc] at h; simp at h
    | none =>
      rw [hc] at h
      simp at h
      cases j with
      | zero => simpa [attemptAt] using hc
      | succ n =>
        unfold attemptAt
        exact ih h n

/-- Any value returned by the search is returned by the matcher on some
suffix of the input. -/
theorem reSearch_some_exists {t : List Char → Option Nat} :
    ∀ {cs : List Char} {b : Bool} {v : Nat},
    reSearch t b cs = some v → ∃ l, t l = some v := by
  intro cs
  induction cs with
  | nil =>
    intro b v h
    unfold reSearch at h
    cases b with
    | true => simp at h
    | false => exact ⟨[], by simpa using h⟩
  | cons c rest ih =>
    intro b v h
    unfold reSearch at h
    cases hc : (if b then none else t (c :: rest)) with
    | some w =>
      rw [hc] at h
      simp at h
      subst h
      cases b with
      | true => simp at hc
      | false => exact ⟨c :: rest, by simpa using hc⟩
    | none =>
      rw [hc] at h
      simp at h
      exact ih h

/-- The numeral value of three digit characters is at most 999. -/
theorem digitsToNat_three_le {a b c : Char} (ha : a.isDigit = true) (hb : b.isDigit = true)
    (hc : c.isDigit = true) : digitsToNat [a, b, c] ≤ 999 := by
  have h1 := isDigit_toNat ha
  have h2 := isDigit_toNat hb
  have h3 := isDigit_toNat hc
  simp [digitsToNat, List.foldl]
  omega

/-- The numeral value of four digit characters is at most 9999. -/
theorem digitsToNat_four_le {a b c d : Char} (ha : a.isDigit = true) (hb : b.isDigit = true)
    (hc : c.isDigit = true) (hd : d.isDigit = true) : digitsToNat [a, b, c, d] ≤ 9999 := by
  have h1 := isDigit_toNat ha
  have h2 := isDigit_toNat hb
  have h3 := isDigit_toNat hc
  have h4 := isDigit_toNat hd
  simp [digitsToNat, List.foldl]
  omega

/-- A value returned by pattern A is the value of a 3- or 4-digit numeral,
hence at most 9999. -/
theorem tryA_le : ∀ {l : List Char} {v : Nat}, tryA l = some v → v ≤ 9999 := by
  intro l v h
  rcases l with _ | ⟨a, _ | ⟨b, _ | ⟨c, _ | ⟨d, rest⟩⟩⟩⟩
  · simp [tryA] at h
  · simp [tryA] at h
  · simp [tryA] at h
  · simp only [tryA] at h
    split at h
    · rename_i hd
      rw [Bool.and_eq_true, Bool.and_eq_true] at hd
      obtain ⟨⟨ha, hb⟩, hc⟩ := hd
      simp only [Option.some.injEq] at h
      subst h
      exact le_trans (digitsToNat_three_le ha hb hc) (by norm_num)
    · simp at h
  · simp only [tryA] at h
    split at h
    · rename_i habc
      rw [Bool.and_eq_true, Bool.and_eq_true] at habc
      obtain ⟨⟨ha, hb⟩, hc⟩ := habc
      split at h
      · rename_i hd
        split at h
        · simp only [Option.some.injEq] at h
          subst h
          exact digitsToNat_four_le ha hb hc hd
        · simp at h
      · split at h
        · simp at h
        · simp only [Option.some.injEq] at h
          subst h
          exact le_trans (digitsToNat_three_le ha hb hc) (by norm_num)
    · simp at h

/-! ### Lemmas about document search -/

mutual
/-- A node returned by `nodeFind` satisfies the filter. -/
theorem nodeFind_pred (p : Node → Bool) (n m : Node) (h : nodeFind p n = some m) :
    p m = true := by
  cases n with
  | text s => simp [nodeFind] at h
  | elem t c ch => exact forestFind_pred p ch m h

/-- A node returned by `forestFind` satisfies the filter. -/
theorem forestFind_pred (p : Node → Bool) (l : NodeList) (m : Node)
    (h : forestFind p l = some m) : p m = true := by
  cases l with
  | nil => simp [forestFind] at h
  | cons n rest =>
    unfold forestFind at h
    by_cases hp : p n
    · simp [hp] at h
      subst h
      exact hp
    · simp [hp] at h
      cases hm : nodeFind p n with
      | some x =>
        rw [hm] at h
        simp at h
        subst h
        exact nodeFind_pred p n x hm
      | none =>
        rw [hm] at h
        simp at h
        exact forestFind_pred p rest m h
end

/-- If the space-joined class list reads exactly `"et"`, the list is the
single token `["et"]`, so it contains `"et"`. -/
theorem joinClasses_eq_et {cls : List String} (h : joinClasses cls = "et") :
    cls.contains "et" = true := by
  match cls with
  | [] => exact absurd h (by decide)
  | [s] =>
    simp only [joinClasses] at h
    simp [List.contains, h]
  | s :: t :: rest =>
    exfalso
    have hmem : ' ' ∈ (joinClasses (s :: t :: rest)).toList := by
      simp only [joinClasses]
      have hsplit : (s ++ " " ++ joinClasses (t :: rest)).toList =
          (s.toList ++ [' ']) ++ (joinClasses (t :: rest)).toList := rfl
      rw [hsplit]
      simp
    rw [h] at hmem
    simp at hmem

/-! ### Concrete documents used by witnesses and counterexamples -/

/-- A document with no relevant sections. -/
def emptyDoc : Node := Node.elem "html" [] NodeList.nil

/-- First-known-use paragraph whose text holds a literal year and a century
phrase. -/
def pLit : Node :=
  Node.elem "p" ["ety-sl", "pb-3"] (NodeList.cons (Node.text "1590, 13th century") NodeList.nil)

/-- First-known-use section around `pLit`. -/
def dLit : Node :=
  Node.elem "div" ["first-known-content-section"] (NodeList.cons pLit NodeList.nil)

/-- Document around `dLit`. -/
def soupLit : Node := Node.elem "html" [] (NodeList.cons dLit NodeList.nil)

/-- First-known-use paragraph with only a century phrase. -/
def pCent : Node :=
  Node.elem "p" ["ety-sl", "pb-3"] (NodeList.cons (Node.text "13th century") NodeList.nil)

/-- First-known-use section around `pCent`. -/
def dCent : Node :=
  Node.elem "div" ["first-known-content-section"] (NodeList.cons pCent NodeList.nil)

/-- Document around `dCent`. -/
def soupCent : Node := Node.elem "html" [] (NodeList.cons dCent NodeList.nil)

/-- First-known-use paragraph whose text holds a 3-digit numeral with a
leading zero. -/
def pZero : Node :=
  Node.elem "p" ["ety-sl", "pb-3"] (NodeList.cons (Node.text "in 012.") NodeList.nil)

/-- First-known-use section around `pZero`. -/
def dZero : Node :=
  Node.elem "div" ["first-known-content-section"] (NodeList.cons pZero NodeList.nil)

/-- Document around `pZero`. -/
def soupZero : Node := Node.elem "html" [] (NodeList.cons dZero NodeList.nil)

/-- Etymology paragraph whose class attribute has an extra token besides
`et`. -/
def pEt : Node :=
  Node.elem "p" ["et", "mw-badge"]
    (NodeList.cons (Node.text "Middle English, from Old French") NodeList.nil)

/-- Etymology section around `pEt`. -/
def dEt : Node :=
  Node.elem "div" ["etymology-content-section"] (NodeList.cons pEt NodeList.nil)

/-- Document around `dEt`. -/
def soupEt : Node := Node.elem "html" [] (NodeList.cons dEt NodeList.nil)

/-! ### Claims -/

/-- C1: `classify_by_year` returns `"modern english"` iff `y ≥ 1800`,
`"early modern english"` iff `1450 < y < 1800`, and `"unknown"` otherwise
(i.e. iff `y ≤ 1450`); in particular at the boundary years 1450, 1451, 1799,
1800 and at the sentinel -1. -/
theorem classify_by_year_spec :
    (∀ y : Int,
      (classify_by_year y = "modern english" ↔ 1800 ≤ y) ∧
      (classify_by_year y = "early modern english" ↔ (1450 < y ∧ y < 1800)) ∧
      (classify_by_year y = "unknown" ↔ y ≤ 1450)) ∧
    classify_by_year 1450 = "unknown" ∧
    classify_by_year 1451 = "early modern english" ∧
    classify_by_year 1799 = "early modern english" ∧
    classify_by_year 1800 = "modern english" ∧
    classify_by_year (-1) = "unknown" := by
  refine ⟨?_, rfl, rfl, rfl, rfl, rfl⟩
  intro y
  unfold classify_by_year
  split_ifs with h1 h2
  · exact ⟨⟨fun _ => h1, fun _ => rfl⟩,
      ⟨fun h => absurd h (by decide), fun h => absurd h.2 (by omega)⟩,
      ⟨fun h => absurd h (by decide), fun _ => absurd h1 (by omega)⟩⟩
  · exact ⟨⟨fun h => absurd h (by decide), fun h => absurd h h1⟩,
      ⟨fun _ => h2, fun _ => rfl⟩,
      ⟨fun h => absurd h (by decide), fun h => absurd h2.1 (by omega)⟩⟩
  · refine ⟨⟨fun h => absurd h (by decide), fun h => absurd h h1⟩,
      ⟨fun h => absurd h (by decide), fun h => absurd h h2⟩,
      ⟨fun _ => ?_, fun _ => rfl⟩⟩
    by_contra hgt
    push_neg at hgt
    exact h2 ⟨by omega, by omega⟩

/-- C5: when the fetch for a word fails (network error, timeout, or non-2xx
status, all raising `requests.RequestException`), the per-word pipeline
returns exactly `(-1, "unknown", false)`; the failure branch returns before
any extractor runs. -/
theorem fetch_failure_unresolved (oracle : String → FetchResult) (w : String)
    (h : oracle w.toLower = FetchResult.failure) :
    fetch_word_data oracle w = (-1, "unknown", false) := by
  unfold fetch_word_data
  rw [h]

/-- Witness for C5 at a concrete oracle and word. -/
theorem fetch_failure_unresolved_w :
    fetch_word_data (fun _ => FetchResult.failure) "Sonnet" = (-1, "unknown", false) :=
  fetch_failure_unresolved (fun _ => FetchResult.failure) "Sonnet" rfl

/-- C6: `extract_year` never pairs the sentinel year -1 with
`is_accurate = true`. -/
theorem extract_year_sentinel (soup : Node) (w : String)
    (h : (extract_year soup w).1 = -1) : (extract_year soup w).2 = false := by
  cases h1 : nodeFind isFirstKnownDiv soup with
  | none => simp [extract_year, h1]
  | some d =>
    cases h2 : nodeFind isYearP d with
    | none => simp [extract_year, h1, h2]
    | some p =>
      cases h3 : reSearch tryA false (getText p).toList with
      | some y =>
        exfalso
        simp only [extract_year, h1, h2, h3] at h
        omega
      | none =>
        cases h4 : reSearch tryC false (getText p).toList with
        | some c => simp only [extract_year, h1, h2, h3, h4]
        | none => simp only [extract_year, h1, h2, h3, h4]

/-- Witness for C6 at a document with no first-known-use section. -/
theorem extract_year_sentinel_w : (extract_year emptyDoc "w").2 = false :=
  extract_year_sentinel emptyDoc "w" rfl

/-- C9: extraction is deterministic — equal inputs give equal results for
both extractors (the embedding is stateless, as are the source functions,
whose only side effect is diagnostic printing). -/
theorem extraction_deterministic (s1 s2 : Node) (w1 w2 : String) (y1 y2 : Int)
    (hs : s1 = s2) (hw : w1 = w2) (hy : y1 = y2) :
    extract_year s1 w1 = extract_year s2 w2 ∧
    extract_etymology s1 y1 = extract_etymology s2 y2 := by
  subst hs
  subst hw
  subst hy
  exact ⟨rfl, rfl⟩

/-- Witness for C9 at a concrete document. -/
theorem extraction_deterministic_w :
    extract_year soupLit "sonnet" = extract_year soupLit "sonnet" ∧
    extract_etymology soupLit 1590 = extract_etymology soupLit 1590 :=
  extraction_deterministic soupLit soupLit "sonnet" "sonnet" 1590 1590 rfl rfl rfl

/-- C2: if the first-known-use text has a standalone 3–4 digit run at
position `i` (word-boundary-delimited, per `attemptAt tryA`) and none at any
earlier position, `extract_year` returns that leftmost run's value with
`is_accurate = true` — regardless of any century phrase in the text
(pattern A precedence). -/
theorem extract_year_patternA (soup d p : Node) (w : String) (i v : Nat)
    (h1 : nodeFind isFirstKnownDiv soup = some d)
    (h2 : nodeFind isYearP d = some p)
    (h3 : attemptAt tryA false (getText p).toList i = some v)
    (h4 : ∀ j, j < i → attemptAt tryA false (getText p).toList j = none) :
    extract_year soup w = ((v : Int), true) := by
  simp only [extract_year, h1, h2, reSearch_of_attemptAt h3 h4]

/-- Witness for C2: the text `"1590, 13th century"` yields `(1590, true)`. -/
theorem extract_year_patternA_w : extract_year soupLit "sonnet" = (1590, true) :=
  extract_year_patternA soupLit dLit pLit "sonnet" 0 1590 rfl rfl rfl
    (fun j hj => absurd hj (Nat.not_lt_zero j))

/-- C3: if no standalone 3–4 digit run occurs anywhere in the first-known-use
text, then: a leftmost ordinal-century match with century number `c` (per
`attemptAt tryC`) makes `extract_year` return `((c - 1) * 100, false)`, and
if the century pattern matches nowhere either, it returns `(-1, false)`. -/
theorem extract_year_patternB (soup d p : Node) (w : String) (i c : Nat)
    (h1 : nodeFind isFirstKnownDiv soup = some d)
    (h2 : nodeFind isYearP d = some p)
    (hA : ∀ j, attemptAt tryA false (getText p).toList j = none) :
    ((attemptAt tryC false (getText p).toList i = some c ∧
      ∀ j, j < i → attemptAt tryC false (getText p).toList j = none) →
      extract_year soup w = (((c : Int) - 1) * 100, false)) ∧
    ((∀ j, attemptAt tryC false (getText p).toList j = none) →
      extract_year soup w = (-1, false)) := by
  constructor
  · rintro ⟨hc, hmin⟩
    simp only [extract_year, h1, h2, reSearch_none_of_attemptAt hA,
      reSearch_of_attemptAt hc hmin]
  · intro hC
    simp only [extract_year, h1, h2, reSearch_none_of_attemptAt hA,
      reSearch_none_of_attemptAt hC]

/-- Witness for C3: the text `"13th century"` with no literal year yields
`(1200, false)`. -/
theorem extract_year_patternB_w : extract_year soupCent "sonnet" = (1200, false) := by
  have h := (extract_year_patternB soupCent dCent pCent "sonnet" 0 13 rfl rfl
      (attemptAt_none_of_reSearch rfl)).1
    ⟨rfl, fun j hj => absurd hj (Nat.not_lt_zero j)⟩
  norm_num at h
  exact h

/-- C4: `extract_etymology` returns `classify_by_year year` exactly when the
etymology section is absent, the `et` paragraph is absent, or the
paragraph's normalized text is empty; otherwise it returns that non-empty
text verbatim, independent of the year. -/
theorem extract_etymology_spec (soup : Node) (year : Int) :
    (nodeFind isEtymDiv soup = none →
      extract_etymology soup year = classify_by_year year) ∧
    (∀ d, nodeFind isEtymDiv soup = some d → nodeFind isEtymP d = none →
      extract_etymology soup year = classify_by_year year) ∧
    (∀ d p, nodeFind isEtymDiv soup = some d → nodeFind isEtymP d = some p →
      getTextSep p = "" → extract_etymology soup year = classify_by_year year) ∧
    (∀ d p, nodeFind isEtymDiv soup = some d → nodeFind isEtymP d = some p →
      getTextSep p ≠ "" → extract_etymology soup year = getTextSep p) := by
  refine ⟨?_, ?_, ?_, ?_⟩
  · intro h
    simp only [extract_etymology, h]
  · intro d h1 h2
    simp only [extract_etymology, h1, h2]
  · intro d p h1 h2 h3
    simp only [extract_etymology, h1, h2, h3]
    simp
  · intro d p h1 h2 h3
    simp only [extract_etymology, h1, h2]
    simp [h3]

/-- Witness for C4: no etymology section and `year = 1900` gives the
classification label. -/
theorem extract_etymology_spec_w :
    extract_etymology emptyDoc 1900 = classify_by_year 1900 :=
  (extract_etymology_spec emptyDoc 1900).1 rfl

/-- C7 counterexample: `find('p', class_='et')` uses BeautifulSoup's
multi-valued class matching, so a paragraph whose class attribute holds the
extra token `"mw-badge"` besides `"et"` (class-token set not exactly
`{"et"}`) is nevertheless selected, and its text is returned. -/
theorem etymP_extra_token_selected :
    nodeFind isEtymP dEt = some pEt ∧
    extract_etymology soupEt 1900 = "Middle English, from Old French" ∧
    "Middle English, from Old French" ≠ classify_by_year 1900 :=
  ⟨rfl, rfl, by decide⟩

/-- C7 amended: within the etymology region, the paragraph step selects a
node exactly of tag `p` whose class-token list contains the token `"et"` —
token membership, so paragraphs with additional class tokens are also
selected. -/
theorem etymP_token_membership (soup : Node) (year : Int) (d m : Node)
    (h1 : nodeFind isEtymDiv soup = some d)
    (h2 : nodeFind isEtymP d = some m) :
    ∃ cls ch, m = Node.elem "p" cls ch ∧ cls.contains "et" = true := by
  have hp := nodeFind_pred isEtymP d m h2
  cases m with
  | text s => simp [isEtymP] at hp
  | elem tag cls ch =>
    unfold isEtymP at hp
    rw [Bool.and_eq_true] at hp
    have htag : tag = "p" := by simpa using hp.1
    refine ⟨cls, ch, by rw [htag], ?_⟩
    have hor := hp.2
    rw [Bool.or_eq_true] at hor
    rcases hor with hc | hj
    · exact hc
    · exact joinClasses_eq_et (by simpa using hj)

/-- Witness for the amended C7 at a concrete document. -/
theorem etymP_token_membership_w :
    ∃ cls ch, pEt = Node.elem "p" cls ch ∧ cls.contains "et" = true :=
  etymP_token_membership soupEt 1900 dEt pEt rfl rfl

/-- C8: rows with fewer than 3 fields produce no output row at all, and
every kept row is emitted as the input row with exactly the three derived
values appended: the output rows are precisely the enriched well-formed
input rows, in order. -/
theorem main_rows_filter (oracle : String → FetchResult) (rows : List (List String)) :
    main_rows oracle rows = (rows.filter (fun r => 3 ≤ r.length)).map (enrichRow oracle) := by
  induction rows with
  | nil => rfl
  | cons row rest ih =>
    by_cases h : row.length < 3
    · have hn : ¬ 3 ≤ row.length := by omega
      simp [main_rows, h, hn, ih]
    · have hy : 3 ≤ row.length := by omega
      simp [main_rows, h, hy, ih]

/-- C10 counterexample: the text `"in 012."` makes `extract_year` return
`(12, true)` — a 3-digit numeral with a leading zero, so an accurate year
below 100 is possible. -/
theorem extract_year_range_cex :
    ¬ ∀ (soup : Node) (w : String), (extract_year soup w).2 = true →
      100 ≤ (extract_year soup w).1 ∧ (extract_year soup w).1 ≤ 9999 := by
  intro hall
  have he : extract_year soupZero "w" = (12, true) := rfl
  have h := hall soupZero "w" (by rw [he])
  rw [he] at h
  norm_num at h

/-- C10 amended: an accurate year is the value of a 3–4 digit numeral
(possibly with leading zeros), so `0 ≤ year ≤ 9999`; and a non-negative year
with `is_accurate = false` is a century start, a multiple of 100. -/
theorem extract_year_range (soup : Node) (w : String) :
    ((extract_year soup w).2 = true →
      0 ≤ (extract_year soup w).1 ∧ (extract_year soup w).1 ≤ 9999) ∧
    (0 ≤ (extract_year soup w).1 → (extract_year soup w).2 = false →
      (100 : Int) ∣ (extract_year soup w).1) := by
  cases h1 : nodeFind isFirstKnownDiv soup with
  | none =>
    simp only [extract_year, h1]
    exact ⟨fun h => absurd h (by decide), fun h0 _ => absurd h0 (by decide)⟩
  | some d =>
    cases h2 : nodeFind isYearP d with
    | none =>
      simp only [extract_year, h1, h2]
      exact ⟨fun h => absurd h (by decide), fun h0 _ => absurd h0 (by decide)⟩
    | some p =>
      cases h3 : reSearch tryA false (getText p).toList with
      | some y =>
        simp only [extract_year, h1, h2, h3]
        constructor
        · intro _
          obtain ⟨l, hl⟩ := reSearch_some_exists h3
          have hy := tryA_le hl
          constructor
          · simp
          · simp
            omega
        · intro _ hf
          exact absurd hf (by decide)
      | none =>
        cases h4 : reSearch tryC false (getText p).toList with
        | some c =>
          simp only [extract_year, h1, h2, h3, h4]
          constructor
          · intro hf
            exact absurd hf (by decide)
          · intro _ _
            exact ⟨(c : Int) - 1, by ring⟩
        | none =>
          simp only [extract_year, h1, h2, h3, h4]
          exact ⟨fun h => absurd h (by decide), fun h0 _ => absurd h0 (by decide)⟩

/-- Witness for the amended C10 at a concrete document. -/
theorem extract_year_range_w :
    0 ≤ (extract_year soupLit "sonnet").1 ∧ (extract_year soupLit "sonnet").1 ≤ 9999 :=
  (extract_year_range soupLit "sonnet").1 rfl
